import Mathlib

/-!
Verification of the persistence core of the CRDT annotation repository.

The development shallowly embeds the PostgreSQL persistence layer:
the `yjs_updates` / `snapshots` / `notes` / `panels` / `branches` tables
become lists of row structures, each SQL statement of the source becomes a
Lean function on that state, and the YJS codec (out of scope for the
repository, treated as an opaque order-independent CRDT codec) is modelled
by a grow-only-set CRDT whose updates are opaque byte lists.

Sources embedded (paths relative to the repository root):
  - lib/adapters/postgres-adapter.ts        (legacy direct adapter)
  - the extended PostgresPersistenceAdapter  (src/unnamed/part_015)
  - app/api/persistence/route.ts             (unified action route)
  - app/api/persistence/snapshots/route.ts
  - app/api/persistence/updates/route.ts
  - the notes delete route                   (src/unnamed/part_004)
  - the compact route                        (src/unnamed/part_003)
  - lib/api/persistence-helpers.ts           (base64 transport helpers)
-/

namespace Persist

/-! ## Codec model

The CRDT library is external to the repository (spec §1 treats it as an
opaque codec with `Merge` / `Apply` / `Encode` / `NewDoc`).  We model it by
the canonical order-independent CRDT: a document is a grow-only set of
items, an update blob is a list of items, `applyUpdate` unions the items
into the document, and `encodeStateAsUpdate` emits the canonical (sorted,
duplicate-free) encoding of the state, so that state equivalence is blob
equality after encoding, exactly as the spec's "byte-equal after
`Codec.Encode`" phrase demands.  `mergeUpdates` concatenates, which for
this CRDT is a semantically equivalent single update. -/

/-- A CRDT document state: the (unordered) collection of items seen so far. -/
abbrev YDoc : Type := List Nat

/-- `new Y.Doc()`: the empty document. -/
def newDoc : YDoc := []

/-- `Y.applyUpdate(doc, update)`: fold an update blob into a document. -/
def applyUpdate (d : YDoc) (u : List Nat) : YDoc := d ++ u

/-- Insert an item into a sorted duplicate-free list, keeping it sorted. -/
def insertItem (x : Nat) : List Nat → List Nat
  | [] => [x]
  | y :: ys => if x < y then x :: y :: ys else if x = y then y :: ys else y :: insertItem x ys

/-- Canonical form of an item collection: sorted, duplicate-free. -/
def canon (l : List Nat) : List Nat := l.foldr insertItem []

/-- `Y.encodeStateAsUpdate(doc)`: the canonical full-state blob. -/
def encodeStateAsUpdate (d : YDoc) : List Nat := canon d

/-- `Y.mergeUpdates(updates)`: one update equivalent to applying them all. -/
def mergeUpdates (us : List (List Nat)) : List Nat := us.flatten

/-! ## Checksums

The API routes compute `crypto.createHash('sha256').update(buf).digest('hex')`
(Node's SHA-256, lowercase hex); we embed SHA-256 (FIPS 180-4) directly.
The two direct adapters instead compute a 32-bit JavaScript hash
(`calculateChecksum`).  All word arithmetic is on `Nat` with explicit
reduction modulo 2^32. -/

/-- Bitwise exclusive-or of the low `k` bits (fuel-based, kernel friendly). -/
def xorB : Nat → Nat → Nat → Nat
  | 0, _, _ => 0
  | k + 1, a, b => (a % 2 + b % 2) % 2 + 2 * xorB k (a / 2) (b / 2)

/-- Bitwise and of the low `k` bits. -/
def andB : Nat → Nat → Nat → Nat
  | 0, _, _ => 0
  | k + 1, a, b => a % 2 * (b % 2) + 2 * andB k (a / 2) (b / 2)

/-- 32-bit exclusive-or. -/
def xor32 (a b : Nat) : Nat := xorB 32 a b

/-- 32-bit and. -/
def and32 (a b : Nat) : Nat := andB 32 a b

/-- 32-bit complement (for inputs below 2^32). -/
def not32 (a : Nat) : Nat := 4294967295 - a % 4294967296

/-- Addition modulo 2^32. -/
def add32 (a b : Nat) : Nat := (a + b) % 4294967296

/-- Right rotation of a 32-bit word by `n`. -/
def rotr32 (n x : Nat) : Nat := (x / 2 ^ n + x % 2 ^ n * 2 ^ (32 - n)) % 4294967296

/-- Logical right shift of a 32-bit word. -/
def shr32 (n x : Nat) : Nat := x / 2 ^ n

/-- SHA-256 message-schedule sigma-0. -/
def ssig0 (x : Nat) : Nat := xor32 (xor32 (rotr32 7 x) (rotr32 18 x)) (shr32 3 x)

/-- SHA-256 message-schedule sigma-1. -/
def ssig1 (x : Nat) : Nat := xor32 (xor32 (rotr32 17 x) (rotr32 19 x)) (shr32 10 x)

/-- SHA-256 compression Sigma-0. -/
def bsig0 (x : Nat) : Nat := xor32 (xor32 (rotr32 2 x) (rotr32 13 x)) (rotr32 22 x)

/-- SHA-256 compression Sigma-1. -/
def bsig1 (x : Nat) : Nat := xor32 (xor32 (rotr32 6 x) (rotr32 11 x)) (rotr32 25 x)

/-- SHA-256 choose function. -/
def chF (x y z : Nat) : Nat := xor32 (and32 x y) (and32 (not32 x) z)

/-- SHA-256 majority function. -/
def majF (x y z : Nat) : Nat := xor32 (xor32 (and32 x y) (and32 x z)) (and32 y z)

/-- The 64 SHA-256 round constants (FIPS 180-4 §4.2.2, in decimal). -/
def shaK : List Nat :=
  [1116352408, 1899447441, 3049323471, 3921009573,
   961987163, 1508970993, 2453635748, 2870763221,
   3624381080, 310598401, 607225278, 1426881987,
   1925078388, 2162078206, 2614888103, 3248222580,
   3835390401, 4022224774, 264347078, 604807628,
   770255983, 1249150122, 1555081692, 1996064986,
   2554220882, 2821834349, 2952996808, 3210313671,
   3336571891, 3584528711, 113926993, 338241895,
   666307205, 773529912, 1294757372, 1396182291,
   1695183700, 1986661051, 2177026350, 2456956037,
   2730485921, 2820302411, 3259730800, 3345764771,
   3516065817, 3600352804, 4094571909, 275423344,
   430227734, 506948616, 659060556, 883997877,
   958139571, 1322822218, 1537002063, 1747873779,
   1955562222, 2024104815, 2227730452, 2361852424,
   2428436474, 2756734187, 3204031479, 3329325298]

/-- The SHA-256 initial hash value (FIPS 180-4 §5.3.3, in decimal). -/
def shaH0 : List Nat :=
  [1779033703, 3144134277, 1013904242, 2773480762,
   1359893119, 2600822924, 528734635, 1541459225]

/-- Big-endian byte encoding of `n` on `k` bytes. -/
def beBytes : Nat → Nat → List Nat
  | 0, _ => []
  | k + 1, n => beBytes k (n / 256) ++ [n % 256]

/-- SHA-256 padding: append `0x80`, zeros, and the 64-bit big-endian bit length. -/
def padMsg (msg : List Nat) : List Nat :=
  msg ++ 0x80 :: List.replicate ((119 - msg.length % 64) % 64) 0 ++ beBytes 8 (8 * msg.length)

/-- Pack bytes into big-endian 32-bit words. -/
def toWords : List Nat → List Nat
  | a :: b :: c :: d :: rest => (a * 16777216 + b * 65536 + c * 256 + d) :: toWords rest
  | _ => []

/-- Extend a 16-word block by `k` further schedule words. -/
def extendW (ws : List Nat) : Nat → List Nat
  | 0 => ws
  | k + 1 =>
    let n := ws.length
    let nw := add32 (add32 (ssig1 (ws.getD (n - 2) 0)) (ws.getD (n - 7) 0))
      (add32 (ssig0 (ws.getD (n - 15) 0)) (ws.getD (n - 16) 0))
    extendW (ws ++ [nw]) k

/-- The 64 SHA-256 rounds over one block. -/
def shaRounds : List Nat → List Nat → List Nat → List Nat
  | w :: ws, k :: ks, [a, b, c, d, e, f, g, h] =>
    let t1 := add32 (add32 (add32 h (bsig1 e)) (add32 (chF e f g) k)) w
    let t2 := add32 (bsig0 a) (majF a b c)
    shaRounds ws ks [add32 t1 t2, a, b, c, add32 d t1, e, f, g]
  | _, _, st => st

/-- Split a padded message into 64-byte blocks (`fuel` bounds recursion). -/
def chunks64 : Nat → List Nat → List (List Nat)
  | 0, _ => []
  | _, [] => []
  | k + 1, l => l.take 64 :: chunks64 k (l.drop 64)

/-- SHA-256 of a byte list, as 32 bytes. -/
def sha256 (msg : List Nat) : List Nat :=
  let padded := padMsg msg
  let final := (chunks64 padded.length padded).foldl
    (fun st chunk =>
      let ws := extendW (toWords chunk) 48
      let r := shaRounds ws shaK st
      (List.zip st r).map (fun p => add32 p.1 p.2)) shaH0
  (final.map (beBytes 4)).flatten

/-- Lowercase hexadecimal digit. -/
def hexDigit (n : Nat) : Char :=
  if n < 10 then Char.ofNat (48 + n) else Char.ofNat (87 + n)

/-- Lowercase hex SHA-256 digest, as produced by
`crypto.createHash('sha256').update(buf).digest('hex')`. -/
def sha256Hex (msg : List Nat) : String :=
  ⟨((sha256 msg).map (fun b => [hexDigit (b / 16), hexDigit (b % 16)])).flatten⟩

/-- JavaScript `ToInt32` conversion. -/
def toInt32 (n : Int) : Int :=
  let m := n % 4294967296
  if m < 2147483648 then m else m - 4294967296

/-- One step of the adapters' checksum loop:
`hash = ((hash << 5) - hash) + data[i]; hash = hash & hash`. -/
def chkStep (h : Int) (b : Nat) : Int := toInt32 (toInt32 (h * 32) - h + b)

/-- Hex digits of `n`, most significant first (`fuel` bounds recursion). -/
def natHexGo : Nat → Nat → List Char
  | 0, _ => []
  | k + 1, n => if n = 0 then [] else natHexGo k (n / 16) ++ [hexDigit (n % 16)]

/-- JavaScript `n.toString(16)` for a non-negative integer. -/
def natHex (n : Nat) : List Char := if n = 0 then ['0'] else natHexGo n n

/-- `PostgresPersistenceAdapter.calculateChecksum` (both adapter versions):
the 32-bit JavaScript hash of the blob, rendered as `Math.abs(hash).toString(16)`. -/
def calculateChecksum (data : List Nat) : String :=
  ⟨natHex (data.foldl chkStep 0).natAbs⟩

/-! ## Database rows

Row structures mirror the persistence schema (spec §6.2): `yjs_updates`,
`snapshots`, and the external `notes` / `panels` / `branches` tables that
carry the soft-delete marker.  Timestamps are naturals (milliseconds);
`NOW()` is passed to each operation explicitly, constant within one
transaction as in PostgreSQL. -/

/-- One row of `yjs_updates`. -/
structure UpdateRow where
  id : Nat
  docName : String
  payload : List Nat
  clientId : Option String
  timestamp : Nat
deriving DecidableEq

/-- One row of `snapshots`. The `panels` jsonb sidecar is kept opaque. -/
structure SnapshotRow where
  id : Nat
  noteId : Option String
  docName : String
  state : List Nat
  checksum : String
  updateCount : Option Nat
  sizeBytes : Option Nat
  panels : Option (List String)
  createdAt : Nat
deriving DecidableEq

/-- One row of the external `notes` table (only the columns the core touches). -/
structure NoteRow where
  id : String
  deletedAt : Option Nat
deriving DecidableEq

/-- One row of the external `panels` table. -/
structure PanelRow where
  panelId : String
  noteId : String
  deletedAt : Option Nat
deriving DecidableEq

/-- One row of the external `branches` table. -/
structure BranchRow where
  id : String
  noteId : String
  deletedAt : Option Nat
deriving DecidableEq

/-- One row of `compaction_log` (observability only). -/
structure CompactionLogRow where
  docName : String
  updatesBefore : Nat
  updatesAfter : Nat
  snapshotSize : Nat
deriving DecidableEq

/-- The database state.  `nextUpdateId` models the `bigserial` key of
`yjs_updates`; `nextSnapshotId` stands in for the uuid key of `snapshots`. -/
structure DB where
  updates : List UpdateRow
  snapshots : List SnapshotRow
  notes : List NoteRow
  panels : List PanelRow
  branches : List BranchRow
  compactionLog : List CompactionLogRow
  nextUpdateId : Nat
  nextSnapshotId : Nat
deriving DecidableEq

/-- The empty database. -/
def DB.empty : DB := ⟨[], [], [], [], [], [], 0, 0⟩

/-! ## Query building blocks -/

/-- `SELECT ... FROM yjs_updates WHERE doc_name = $1` (table order). -/
def updatesOf (db : DB) (doc : String) : List UpdateRow :=
  db.updates.filter (fun r => r.docName == doc)

/-- `SELECT ... FROM snapshots WHERE doc_name = $1` (table order). -/
def snapsOf (db : DB) (doc : String) : List SnapshotRow :=
  db.snapshots.filter (fun s => s.docName == doc)

/-- Insertion step of the generic insertion sort used to model `ORDER BY`. -/
def insOrd {α : Type} (le : α → α → Bool) (x : α) : List α → List α
  | [] => [x]
  | y :: ys => if le x y then x :: y :: ys else y :: insOrd le x ys

/-- Insertion sort used to model `ORDER BY`.  PostgreSQL leaves the order of
rows with equal keys unspecified; this model resolves such ties
deterministically (the relative order chosen by the insertion sort). -/
def sortOrd {α : Type} (le : α → α → Bool) : List α → List α
  | [] => []
  | x :: xs => insOrd le x (sortOrd le xs)

/-- `ORDER BY timestamp ASC` on `yjs_updates` rows. -/
def sortByTs (l : List UpdateRow) : List UpdateRow :=
  sortOrd (fun a b => a.timestamp ≤ b.timestamp) l

/-- `ORDER BY created_at DESC` on `snapshots` rows. -/
def sortByCreatedDesc (l : List SnapshotRow) : List SnapshotRow :=
  sortOrd (fun a b => b.createdAt ≤ a.createdAt) l

/-- `SELECT ... FROM snapshots WHERE doc_name = $1 ORDER BY created_at DESC
LIMIT 1`, as run by `loadSnapshot` (both adapters) and `handleLoad`. -/
def latestSnap (db : DB) (doc : String) : Option SnapshotRow :=
  (sortByCreatedDesc (snapsOf db doc)).head?

/-! ## Load (`PostgresPersistenceAdapter.load`, `handleLoad`)

Both implementations run the same logic: return the latest snapshot when
one exists, otherwise replay every stored update into a fresh document and
encode the result; `null` when the doc has neither. -/

/-- `load(docName)` of `lib/adapters/postgres-adapter.ts` lines 162–185 and
`handleLoad` of `app/api/persistence/route.ts` lines 118–178 (byte level;
the route additionally base64-encodes the result for transport). -/
def load (db : DB) (doc : String) : Option (List Nat) :=
  match latestSnap db doc with
  | some s => some s.state
  | none =>
    let us := (sortByTs (updatesOf db doc)).map (fun r => r.payload)
    match us with
    | [] => none
    | _ => some (encodeStateAsUpdate (us.foldl applyUpdate newDoc))

/-- The spec's description of `Load` (spec §2, §4.7): the latest snapshot
with every update record newer than that snapshot folded in via the codec;
all updates when no snapshot exists; none when neither exists.  Written
from the spec's words, for comparison against `load`. -/
def loadSpec (db : DB) (doc : String) : Option (List Nat) :=
  match latestSnap db doc with
  | some s =>
    let newer := (sortByTs (updatesOf db doc)).filter (fun r => s.createdAt < r.timestamp)
    some (encodeStateAsUpdate ((newer.map (fun r => r.payload)).foldl applyUpdate (applyUpdate newDoc s.state)))
  | none =>
    let us := (sortByTs (updatesOf db doc)).map (fun r => r.payload)
    match us with
    | [] => none
    | _ => some (encodeStateAsUpdate (us.foldl applyUpdate newDoc))

/-- A database holding, for doc `"d"`: one snapshot (state `[0]`, created at
time 10) and one update record (payload `[1]`) committed later, at time 20. -/
def dbC1 : DB :=
  { DB.empty with
    snapshots := [⟨0, none, "d", [0], "cs0", none, none, none, 10⟩],
    updates := [⟨1, "d", [1], some "c1", 20⟩],
    nextUpdateId := 2,
    nextSnapshotId := 1 }

/-! ## Binary transport helpers (`lib/api/persistence-helpers.ts`)

`uint8ArrayToBase64` builds a binary string from the bytes and calls `btoa`;
`base64ToUint8Array` calls `atob` and reads the char codes back.  We model
the composition directly as standard padded base64 over byte lists;
`atob`'s `InvalidCharacterError` becomes `none` (the caller catches it and
returns null).  `atob`'s leniency about surrounding ASCII whitespace is not
modelled. -/

/-- The base64 alphabet character for a 6-bit value. -/
def b64Char (n : Nat) : Char :=
  if n < 26 then Char.ofNat (65 + n)
  else if n < 52 then Char.ofNat (97 + (n - 26))
  else if n < 62 then Char.ofNat (48 + (n - 52))
  else if n = 62 then '+' else '/'

/-- The 6-bit value of a base64 alphabet character, none outside the alphabet. -/
def b64Val (c : Char) : Option Nat :=
  let n := c.toNat
  if 65 ≤ n ∧ n ≤ 90 then some (n - 65)
  else if 97 ≤ n ∧ n ≤ 122 then some (n - 97 + 26)
  else if 48 ≤ n ∧ n ≤ 57 then some (n - 48 + 52)
  else if n = 43 then some 62
  else if n = 47 then some 63
  else none

/-- Standard padded base64 encoding of a byte list (the `btoa` output). -/
def encB64 : List Nat → List Char
  | [] => []
  | [a] => [b64Char (a / 4), b64Char (a % 4 * 16), '=', '=']
  | [a, b] => [b64Char (a / 4), b64Char (a % 4 * 16 + b / 16), b64Char (b % 16 * 4), '=']
  | a :: b :: c :: rest =>
    b64Char (a / 4) :: b64Char (a % 4 * 16 + b / 16) :: b64Char (b % 16 * 4 + c / 64) ::
      b64Char (c % 64) :: encB64 rest

/-- Base64 decoding (the `atob` semantics on its accepted inputs: optional
final padding, failure on anything outside the alphabet, leftover bits
discarded). -/
def decB64 : List Char → Option (List Nat)
  | [] => some []
  | [_] => none
  | [a, b] => do
    let v1 ← b64Val a
    let v2 ← b64Val b
    some [v1 * 4 + v2 / 16]
  | [a, b, c] => do
    let v1 ← b64Val a
    let v2 ← b64Val b
    let v3 ← b64Val c
    some [v1 * 4 + v2 / 16, v2 % 16 * 16 + v3 / 4]
  | a :: b :: c :: d :: rest =>
    if c = '=' then
      if d = '=' ∧ rest = [] then do
        let v1 ← b64Val a
        let v2 ← b64Val b
        some [v1 * 4 + v2 / 16]
      else none
    else if d = '=' then
      if rest = [] then do
        let v1 ← b64Val a
        let v2 ← b64Val b
        let v3 ← b64Val c
        some [v1 * 4 + v2 / 16, v2 % 16 * 16 + v3 / 4]
      else none
    else do
      let v1 ← b64Val a
      let v2 ← b64Val b
      let v3 ← b64Val c
      let v4 ← b64Val d
      let tail ← decB64 rest
      some ((v1 * 4 + v2 / 16) :: (v2 % 16 * 16 + v3 / 4) :: (v3 % 4 * 64 + v4) :: tail)

/-- `uint8ArrayToBase64` of `lib/api/persistence-helpers.ts`. -/
def uint8ArrayToBase64 (u : List Nat) : String := ⟨encB64 u⟩

/-- `base64ToUint8Array` of `lib/api/persistence-helpers.ts`; none models the
`atob` exception on invalid input. -/
def base64ToUint8Array (s : String) : Option (List Nat) := decB64 s.data

/-- `formatUpdateForTransport`: both branches base64-encode the bytes. -/
def formatUpdateForTransport (u : List Nat) : String := uint8ArrayToBase64 u

/-- The dynamic value handed to `parseUpdateFromRequest`: a JSON string, a
legacy integer array, a raw byte array, or anything else. -/
inductive ReqVal where
  | str (s : String)
  | arr (l : List Nat)
  | bytes (l : List Nat)
  | other
deriving DecidableEq

/-- `parseUpdateFromRequest` of `lib/api/persistence-helpers.ts`.  The
function first rejects falsy input (`if (!update) return null`), which
includes the empty string; then decodes base64 strings (null when `atob`
throws), passes arrays through `new Uint8Array`, and accepts byte arrays. -/
def parseUpdateFromRequest : ReqVal → Option (List Nat)
  | .str s => if s = "" then none else base64ToUint8Array s
  | .arr l => some l
  | .bytes l => some l
  | .other => none

/-! ## Doc-name parsing -/

/-- Drop `pre` from the front of `l` when it is an initial segment. -/
def dropPre : List Char → List Char → Option (List Char)
  | [], l => some l
  | _, [] => none
  | p :: ps, c :: cs => if p = c then dropPre ps cs else none

/-- The adapters' `docName.match(/^note:(.+)$/)`: the note id when the doc
name is `note:<id>` with a non-empty id. -/
def noteIdOf (docName : String) : Option String :=
  match dropPre "note:".data docName.data with
  | some [] => none
  | some rest => some ⟨rest⟩
  | none => none

/-- `doc_name LIKE 'panel:<noteId>:%'` (for wildcard-free note ids). -/
def panelDocOf (noteId docName : String) : Bool :=
  (dropPre ("panel:" ++ noteId ++ ":").data docName.data).isSome

/-! ## Persist (`PostgresPersistenceAdapter.persist`, `handlePersist`,
`POST /persistence/updates`)

`INSERT INTO yjs_updates (doc_name, update, client_id, timestamp)
VALUES ($1, $2, $3, NOW())`. -/

/-- Append one update record with a server-assigned id and timestamp. -/
def persist (db : DB) (doc : String) (payload : List Nat) (clientId : Option String)
    (now : Nat) : DB :=
  { db with
    updates := db.updates ++ [⟨db.nextUpdateId, doc, payload, clientId, now⟩],
    nextUpdateId := db.nextUpdateId + 1 }

/-! ## Snapshot saves -/

/-- Result of a snapshot save request. -/
inductive SnapResponse where
  | invalid
  | dup (checksum : String)
  | saved (id : Nat) (checksum : String)
deriving DecidableEq

/-- `PostgresPersistenceAdapter.saveSnapshot` (both adapter versions):
checksum via `calculateChecksum`, `note_id` extracted from a `note:<id>`
doc name, unconditional insert. -/
def saveSnapshotAdapter (db : DB) (doc : String) (snapshot : List Nat) (now : Nat) : DB :=
  { db with
    snapshots := db.snapshots ++
      [⟨db.nextSnapshotId, noteIdOf doc, doc, snapshot, calculateChecksum snapshot,
        none, none, none, now⟩],
    nextSnapshotId := db.nextSnapshotId + 1 }

/-- `handleSaveSnapshot` of `app/api/persistence/route.ts` lines 233–269:
SHA-256 checksum, then an unconditional
`INSERT INTO snapshots (doc_name, state, checksum, created_at)`. -/
def handleSaveSnapshot (db : DB) (doc : String) (snapshot : ReqVal) (now : Nat) :
    SnapResponse × DB :=
  if doc = "" then (.invalid, db)
  else
    match parseUpdateFromRequest snapshot with
    | none => (.invalid, db)
    | some bytes =>
      let checksum := sha256Hex bytes
      (.saved db.nextSnapshotId checksum,
        { db with
          snapshots := db.snapshots ++
            [⟨db.nextSnapshotId, none, doc, bytes, checksum, none, none, none, now⟩],
          nextSnapshotId := db.nextSnapshotId + 1 })

/-- `POST /persistence/snapshots` (snapshots route): SHA-256 checksum, then
a duplicate probe `SELECT id FROM snapshots WHERE doc_name = $1 AND
checksum = $2`; on a hit it answers `duplicate: true` without inserting,
otherwise it inserts (no `note_id` column in this insert). -/
def snapshotsPost (db : DB) (doc : String) (snapshot : ReqVal)
    (panels : Option (List String)) (now : Nat) : SnapResponse × DB :=
  if doc = "" then (.invalid, db)
  else
    match parseUpdateFromRequest snapshot with
    | none => (.invalid, db)
    | some bytes =>
      match db.snapshots.filter (fun s => s.docName == doc && s.checksum == sha256Hex bytes) with
      | _ :: _ => (.dup (sha256Hex bytes), db)
      | [] =>
        (.saved db.nextSnapshotId (sha256Hex bytes),
          { db with
            snapshots := db.snapshots ++
              [⟨db.nextSnapshotId, none, doc, bytes, sha256Hex bytes, none, none, panels, now⟩],
            nextSnapshotId := db.nextSnapshotId + 1 })

/-! ## Compaction

Three compaction paths exist in the source.  All of them read the doc's
updates with `ORDER BY timestamp ASC` and, inside the same transaction,
insert a snapshot and run `DELETE FROM yjs_updates WHERE doc_name = $1` —
a delete bounded only by the doc name.  Under PostgreSQL's default
READ COMMITTED isolation the `DELETE` statement also sees (and removes)
rows committed after the transaction's earlier `SELECT`; each compaction
model therefore takes a `late` argument holding the update rows committed
between that read and the delete.  The purely sequential run is `late = []`. -/

/-- Outcome of a compaction request. -/
inductive CompactOut where
  | skipped (updateCount : Nat)
  | noop
  | done (compactedCount : Nat) (checksum : String)
deriving DecidableEq

/-- `DELETE FROM snapshots WHERE doc_name = $1 AND id NOT IN (SELECT id
FROM snapshots WHERE doc_name = $1 ORDER BY created_at DESC LIMIT K)`:
keep every row of other docs, and of the doc only the rows whose id is
among the newest `K`. -/
def pruneToLast (snaps : List SnapshotRow) (doc : String) (K : Nat) : List SnapshotRow :=
  snaps.filter (fun s => !(s.docName == doc) ||
    s.id ∈ ((sortByCreatedDesc (snaps.filter (fun q => q.docName == doc))).take K).map
      (fun q => q.id))

/-- `handleCompact` of `app/api/persistence/route.ts` lines 309–388: replay
all updates into a fresh doc, insert a SHA-256-checksummed snapshot, delete
the doc's updates.  No snapshot is read first and no pruning happens. -/
def handleCompact (db : DB) (doc : String) (late : List UpdateRow) (now : Nat) :
    CompactOut × DB :=
  let rows := sortByTs (updatesOf db doc)
  match rows with
  | [] => (.noop, { db with updates := db.updates ++ late })
  | _ =>
    let state := encodeStateAsUpdate (rows.foldl (fun d r => applyUpdate d r.payload) newDoc)
    let checksum := sha256Hex state
    (.done rows.length checksum,
      { db with
        snapshots := db.snapshots ++
          [⟨db.nextSnapshotId, none, doc, state, checksum, none, none, none, now⟩],
        nextSnapshotId := db.nextSnapshotId + 1,
        updates := (db.updates ++ late).filter (fun r => !(r.docName == doc)) })

/-- Compaction thresholds of the extended adapter (src/unnamed/part_015). -/
structure CompactionConfig where
  updateThreshold : Nat
  sizeThreshold : Nat
  autoCompact : Bool
  keepSnapshots : Nat
deriving DecidableEq

/-- The adapter's default compaction configuration. -/
def defaultCompactionConfig : CompactionConfig :=
  ⟨100, 1048576, true, 3⟩

/-- Document statistics (src/unnamed/part_015 `getDocumentStats`):
`COUNT(*)`, `SUM(LENGTH(update::text))` (the bytea-to-text cast renders
`\x` plus two hex characters per byte), and the latest snapshot time. -/
structure DocumentStats where
  updateCount : Nat
  totalSize : Nat
  lastSnapshot : Option Nat
deriving DecidableEq

/-- `getDocumentStats` of src/unnamed/part_015. -/
def getDocumentStats (db : DB) (doc : String) : DocumentStats :=
  let rows := updatesOf db doc
  { updateCount := rows.length,
    totalSize := (rows.map (fun r => 2 + 2 * r.payload.length)).sum,
    lastSnapshot := (latestSnap db doc).map (fun s => s.createdAt) }

/-- `shouldCompact` of src/unnamed/part_015; the 24-hour test
`(now - lastSnapshot) / 3600000 > 24` is compared exactly. -/
def shouldCompact (stats : DocumentStats) (cfg : CompactionConfig) (now : Nat) : Bool :=
  if stats.updateCount = 0 then false
  else if cfg.updateThreshold ≤ stats.updateCount then true
  else if cfg.sizeThreshold ≤ stats.totalSize then true
  else
    match stats.lastSnapshot with
    | some t => decide (24 * 3600000 < now - t)
    | none => false

/-- `PostgresPersistenceAdapter.compact` of src/unnamed/part_015 lines
407–491: gate on `shouldCompact`, merge all updates via `Y.mergeUpdates`
(a single update is used as-is), apply to a fresh doc, insert a snapshot
checksummed with `calculateChecksum` and carrying `update_count` /
`size_bytes`, delete the doc's updates, keep only the newest
`keepSnapshots` snapshots, and append a compaction-log entry. -/
def compactPart015 (db : DB) (doc : String) (cfg : CompactionConfig)
    (late : List UpdateRow) (now : Nat) : CompactOut × DB :=
  if !shouldCompact (getDocumentStats db doc) cfg now then
    (.skipped (getDocumentStats db doc).updateCount, { db with updates := db.updates ++ late })
  else
    let rows := sortByTs (updatesOf db doc)
    match rows with
    | [] => (.noop, { db with updates := db.updates ++ late })
    | _ =>
      let payloads := rows.map (fun r => r.payload)
      let merged := match payloads with
        | [u] => u
        | _ => mergeUpdates payloads
      let snapshot := encodeStateAsUpdate (applyUpdate newDoc merged)
      let checksum := calculateChecksum snapshot
      (.done rows.length checksum,
        { db with
          snapshots := pruneToLast (db.snapshots ++
            [⟨db.nextSnapshotId, noteIdOf doc, doc, snapshot, checksum,
              some rows.length, some snapshot.length, none, now⟩]) doc cfg.keepSnapshots,
          nextSnapshotId := db.nextSnapshotId + 1,
          updates := (db.updates ++ late).filter (fun r => !(r.docName == doc)),
          compactionLog := db.compactionLog ++ [⟨doc, rows.length, 0, snapshot.length⟩] })

/-- `PostgresPersistenceAdapter.compact` of `lib/adapters/postgres-adapter.ts`
lines 281–335: replay all updates, save a snapshot through the adapter's
`saveSnapshot` (custom checksum), delete the doc's updates, then delete
only the doc's snapshots older than `SNAPSHOT_RETENTION_DAYS` (default 30
days) — no count-based pruning. -/
def compactAdapterV1 (db : DB) (doc : String) (retentionDays : Nat)
    (late : List UpdateRow) (now : Nat) : DB :=
  let rows := sortByTs (updatesOf db doc)
  match rows with
  | [] => { db with updates := db.updates ++ late }
  | _ =>
    let state := encodeStateAsUpdate (rows.foldl (fun d r => applyUpdate d r.payload) newDoc)
    let db1 := saveSnapshotAdapter db doc state now
    { db1 with
      updates := (db1.updates ++ late).filter (fun r => !(r.docName == doc)),
      snapshots := db1.snapshots.filter
        (fun s => !(s.docName == doc && s.createdAt + retentionDays * 86400000 < now)) }

/-- `POST /persistence/compact` (src/unnamed/part_003 lines 20–153): unless
forced, skip when the doc has fewer than 10 updates; otherwise read the
latest snapshot, apply it to a fresh doc, replay all updates on top, insert
a SHA-256-checksummed snapshot carrying the panels sidecar, delete the
doc's updates, and keep only the newest 3 snapshots. -/
def compactRoute (db : DB) (doc : String) (force : Bool)
    (panelsSidecar : Option (List String)) (late : List UpdateRow) (now : Nat) :
    CompactOut × DB :=
  if !force ∧ (updatesOf db doc).length < 10 then
    (.skipped (updatesOf db doc).length, { db with updates := db.updates ++ late })
  else
    let s0 := latestSnap db doc
    let rows := sortByTs (updatesOf db doc)
    match rows with
    | [] => (.noop, { db with updates := db.updates ++ late })
    | _ =>
      let start := match s0 with
        | some s => applyUpdate newDoc s.state
        | none => newDoc
      let state := encodeStateAsUpdate (rows.foldl (fun d r => applyUpdate d r.payload) start)
      let checksum := sha256Hex state
      (.done rows.length checksum,
        { db with
          snapshots := pruneToLast (db.snapshots ++
            [⟨db.nextSnapshotId, none, doc, state, checksum, none, none, panelsSidecar, now⟩])
            doc 3,
          nextSnapshotId := db.nextSnapshotId + 1,
          updates := (db.updates ++ late).filter (fun r => !(r.docName == doc)) })

/-! ## Delete coordinator (src/unnamed/part_015 `deleteNote` /
`hardDeleteNote`, and the notes delete route, src/unnamed/part_004) -/

/-- Soft delete: mark the note, delete the update rows whose doc name is
`note:<id>` or matches `panel:<id>:%`, delete the snapshots whose `note_id`
column equals the note id, and mark panels and branches. -/
def deleteNote (db : DB) (noteId : String) (now : Nat) : DB :=
  { db with
    notes := db.notes.map (fun n => if n.id == noteId then { n with deletedAt := some now } else n),
    updates := db.updates.filter
      (fun r => !(r.docName == "note:" ++ noteId || panelDocOf noteId r.docName)),
    snapshots := db.snapshots.filter (fun s => !(s.noteId == some noteId)),
    panels := db.panels.map
      (fun p => if p.noteId == noteId then { p with deletedAt := some now } else p),
    branches := db.branches.map
      (fun b => if b.noteId == noteId then { b with deletedAt := some now } else b) }

/-- Hard delete: remove the update rows, the snapshots with matching
`note_id`, the branches, the panels, and the note row itself. -/
def hardDeleteNote (db : DB) (noteId : String) : DB :=
  { db with
    updates := db.updates.filter
      (fun r => !(r.docName == "note:" ++ noteId || panelDocOf noteId r.docName)),
    snapshots := db.snapshots.filter (fun s => !(s.noteId == some noteId)),
    branches := db.branches.filter (fun b => !(b.noteId == noteId)),
    panels := db.panels.filter (fun p => !(p.noteId == noteId)),
    notes := db.notes.filter (fun n => !(n.id == noteId)) }

/-- `DELETE /notes/:noteId` (src/unnamed/part_004): empty note id → 400;
hard delete without the `X-Confirm-Delete: PERMANENTLY-DELETE` header →
400 and no mutation; otherwise run the soft or hard delete.  Returns the
HTTP status and the resulting database. -/
def notesDeleteRoute (db : DB) (noteId : String) (hard : Bool)
    (confirmHeader : Option String) (now : Nat) : Nat × DB :=
  if noteId = "" then (400, db)
  else if hard then
    if confirmHeader ≠ some "PERMANENTLY-DELETE" then (400, db)
    else (200, hardDeleteNote db noteId)
  else (200, deleteNote db noteId now)

/-! ## ReadAll ordering (`getAllUpdates`, `GET /persistence/updates`)

Every update read in the source is `SELECT ... FROM yjs_updates WHERE
doc_name = $1 ORDER BY timestamp ASC` — the sole sort key is `timestamp`.
PostgreSQL may return rows with equal timestamps in any order, so the
query's observable results are captured as a relation: any permutation of
the doc's rows that is nondecreasing in `timestamp`. -/

/-- Timestamps nondecreasing along the list. -/
def tsAsc : List UpdateRow → Bool
  | [] => true
  | [_] => true
  | a :: b :: t => a.timestamp ≤ b.timestamp && tsAsc (b :: t)

/-- `(timestamp, id)` lexicographically nondecreasing along the list. -/
def tsIdAsc : List UpdateRow → Bool
  | [] => true
  | [_] => true
  | a :: b :: t =>
    (a.timestamp < b.timestamp || (a.timestamp == b.timestamp && a.id ≤ b.id)) && tsIdAsc (b :: t)

/-- `res` is a possible result of `ORDER BY timestamp ASC` over the doc's
update rows: a permutation of them with nondecreasing timestamps. -/
def validReadAll (db : DB) (doc : String) (res : List UpdateRow) : Prop :=
  res.Perm (updatesOf db doc) ∧ tsAsc res = true

instance (db : DB) (doc : String) (res : List UpdateRow) :
    Decidable (validReadAll db doc res) :=
  inferInstanceAs (Decidable (_ ∧ _))

/-! ## Concrete databases used as witnesses and counterexamples -/

/-- A database whose doc `"d"` has one update record and no snapshot. -/
def dbU : DB :=
  { DB.empty with updates := [⟨0, "d", [2], none, 5⟩], nextUpdateId := 1 }

/-- A database with one update for `"d"` whose payload is `[1]`. -/
def dbC4 : DB :=
  { DB.empty with updates := [⟨0, "d", [1], none, 5⟩], nextUpdateId := 1 }

/-- An update row for `"d"` committed while a compaction is in flight. -/
def lateRow : UpdateRow := ⟨1, "d", [5], none, 9⟩

/-- A database with one update for `"d"` and one for the unrelated doc `"e"`. -/
def dbC4w : DB :=
  { DB.empty with
    updates := [⟨0, "d", [1], none, 5⟩, ⟨1, "e", [2], none, 6⟩],
    nextUpdateId := 2 }

/-- A database with a note `n1`, a panel, a branch, an update for the note's
doc, and an adapter-written snapshot (whose `note_id` column is set). -/
def dbC7w : DB :=
  { DB.empty with
    updates := [⟨0, "note:n1", [1], none, 1⟩, ⟨1, "panel:n1:p1", [2], none, 2⟩],
    snapshots := [⟨0, some "n1", "note:n1", [1], "c", none, none, none, 1⟩],
    notes := [⟨"n1", none⟩],
    panels := [⟨"p1", "n1", none⟩],
    branches := [⟨"b1", "n1", none⟩],
    nextUpdateId := 2,
    nextSnapshotId := 1 }

/-- A database with three snapshots for `"d"` (all recent) and one update. -/
def dbC5 : DB :=
  { DB.empty with
    updates := [⟨0, "d", [1], none, 5⟩],
    snapshots :=
      [⟨10, none, "d", [7], "c7", none, none, none, 1⟩,
       ⟨11, none, "d", [8], "c8", none, none, none, 2⟩,
       ⟨12, none, "d", [9], "c9", none, none, none, 3⟩],
    nextUpdateId := 1,
    nextSnapshotId := 13 }

/-- A database with one snapshot for `"d"` created at time 0 and one update,
so that the extended adapter's 24-hour rule triggers compaction. -/
def dbC5w : DB :=
  { DB.empty with
    updates := [⟨0, "d", [1], none, 5⟩],
    snapshots := [⟨0, none, "d", [7], "c7", none, none, none, 0⟩],
    nextUpdateId := 1,
    nextSnapshotId := 1 }

/-- A database holding only the note row `n1`. -/
def dbC7 : DB := { DB.empty with notes := [⟨"n1", none⟩] }

/-- Two update rows for `"d"` sharing the timestamp 5. -/
def rowA : UpdateRow := ⟨1, "d", [1], none, 5⟩

/-- Second of the two equal-timestamp rows. -/
def rowB : UpdateRow := ⟨2, "d", [2], none, 5⟩

/-- A database whose doc `"d"` has two updates with equal timestamps. -/
def dbC9 : DB := { DB.empty with updates := [rowA, rowB], nextUpdateId := 3 }

/-- A database whose doc `"d"` has two updates with distinct timestamps. -/
def dbC9w : DB :=
  { DB.empty with
    updates := [⟨1, "d", [1], none, 5⟩, ⟨2, "d", [2], none, 7⟩],
    nextUpdateId := 3 }

/-- Checksum integrity of one snapshot row, as the spec states it:
the stored checksum is the lowercase hex SHA-256 of the stored state. -/
def rowSha (s : SnapshotRow) : Prop := s.checksum = sha256Hex s.state

/-- Checksum integrity over a whole database. -/
def snapshotsSha (db : DB) : Prop := ∀ s ∈ db.snapshots, rowSha s

end Persist

namespace Persist

/-! ## Generic facts about the `ORDER BY` insertion sort -/

theorem insOrd_perm {α : Type} (le : α → α → Bool) (x : α) (l : List α) :
    (insOrd le x l).Perm (x :: l) := by
  induction l with
  | nil => exact List.Perm.refl _
  | cons y ys ih =>
    unfold insOrd
    by_cases h : le x y = true
    · simp [h]
    · simp only [h, if_false, Bool.false_eq_true]
      exact ((ih.cons y).trans (List.Perm.swap x y ys))

theorem sortOrd_perm {α : Type} (le : α → α → Bool) (l : List α) :
    (sortOrd le l).Perm l := by
  induction l with
  | nil => exact List.Perm.refl _
  | cons x xs ih => exact (insOrd_perm le x (sortOrd le xs)).trans (ih.cons x)

theorem insOrd_pairwise {α : Type} (le : α → α → Bool)
    (htot : ∀ a b, le a b = true ∨ le b a = true)
    (htrans : ∀ a b c, le a b = true → le b c = true → le a c = true)
    (x : α) (l : List α) (h : l.Pairwise (fun a b => le a b = true)) :
    (insOrd le x l).Pairwise (fun a b => le a b = true) := by
  induction l with
  | nil => simp [insOrd]
  | cons y ys ih =>
    obtain ⟨hy, hys⟩ := List.pairwise_cons.mp h
    unfold insOrd
    by_cases hxy : le x y = true
    · rw [if_pos hxy]
      refine List.Pairwise.cons ?_ (List.Pairwise.cons hy hys)
      intro z hz
      rcases List.mem_cons.mp hz with rfl | hz
      · exact hxy
      · exact htrans x y z hxy (hy z hz)
    · simp only [hxy, if_false, Bool.false_eq_true]
      refine List.Pairwise.cons ?_ (ih hys)
      intro z hz
      have hz2 := (insOrd_perm le x ys).mem_iff.mp hz
      rcases List.mem_cons.mp hz2 with rfl | hz3
      · rcases htot z y with hh | hh
        · exact absurd hh hxy
        · exact hh
      · exact hy z hz3

theorem sortOrd_pairwise {α : Type} (le : α → α → Bool)
    (htot : ∀ a b, le a b = true ∨ le b a = true)
    (htrans : ∀ a b c, le a b = true → le b c = true → le a c = true)
    (l : List α) :
    (sortOrd le l).Pairwise (fun a b => le a b = true) := by
  induction l with
  | nil => simp [sortOrd]
  | cons x xs ih => exact insOrd_pairwise le htot htrans x (sortOrd le xs) ih

end Persist

/-- C1: the claim fails on the code.  With a snapshot present and a strictly
newer persisted update record, `load` returns the snapshot blob alone
(`[0]`), whereas the claimed result folds the newer update in via the
codec (`[0, 1]`). -/
theorem Persist.c1_counterexample :
    Persist.load Persist.dbC1 "d" = some [0] ∧
    Persist.loadSpec Persist.dbC1 "d" = some [0, 1] ∧
    Persist.load Persist.dbC1 "d" ≠ Persist.loadSpec Persist.dbC1 "d" :=
  ⟨by decide, by decide, by decide⟩

/-- C1 (amended): when a snapshot exists for the doc, `Load` returns the
latest snapshot's stored state unchanged, ignoring every update record —
newer ones included; the update-replay path runs only when no snapshot
exists, and with neither updates nor snapshots the result is none. -/
theorem Persist.load_returns_latest_snapshot_unchanged
    (db : Persist.DB) (doc : String) (s : Persist.SnapshotRow)
    (h : Persist.latestSnap db doc = some s) :
    Persist.load db doc = some s.state := by
  unfold Persist.load
  rw [h]

/-- Witness for the amended C1 theorem at the concrete database `dbC1`. -/
theorem Persist.load_returns_latest_snapshot_unchanged_witness :
    Persist.load Persist.dbC1 "d" = some (⟨0, none, "d", [0], "cs0", none, none, none, 10⟩ :
      Persist.SnapshotRow).state :=
  Persist.load_returns_latest_snapshot_unchanged Persist.dbC1 "d"
    ⟨0, none, "d", [0], "cs0", none, none, none, 10⟩ (by decide)

/-- C8: the claim fails on the code.  A hard-delete request without the
`X-Confirm-Delete: PERMANENTLY-DELETE` header is refused with HTTP 400,
not with 401 or 403 as claimed (the mutation is indeed not performed). -/
theorem Persist.c8_counterexample :
    (Persist.notesDeleteRoute Persist.DB.empty "n1" true none 0).1 = 400 ∧
    ¬((Persist.notesDeleteRoute Persist.DB.empty "n1" true none 0).1 = 401 ∨
      (Persist.notesDeleteRoute Persist.DB.empty "n1" true none 0).1 = 403) :=
  ⟨by decide, by decide⟩

/-- C8 (amended): every hard-delete request lacking the
`PERMANENTLY-DELETE` confirmation header fails with HTTP 400 and performs
no mutation: the database is returned unchanged. -/
theorem Persist.hard_delete_without_confirmation
    (db : Persist.DB) (noteId : String) (hdr : Option String) (now : Nat)
    (h : hdr ≠ some "PERMANENTLY-DELETE") :
    Persist.notesDeleteRoute db noteId true hdr now = (400, db) := by
  unfold Persist.notesDeleteRoute
  by_cases hn : noteId = ""
  · simp [hn]
  · simp [hn, h]

/-- Witness for the amended C8 theorem: a concrete refused hard delete. -/
theorem Persist.hard_delete_without_confirmation_witness :
    Persist.notesDeleteRoute Persist.DB.empty "n1" true none 0 = (400, Persist.DB.empty) :=
  Persist.hard_delete_without_confirmation Persist.DB.empty "n1" none 0 (by decide)

/-- C9: the claim fails on the code.  The queries order by `timestamp`
alone, so a result returning two equal-timestamp rows in decreasing id
order is a valid answer of `ORDER BY timestamp ASC`, yet it is not in
`(timestamp, id)` ascending order. -/
theorem Persist.c9_counterexample :
    Persist.validReadAll Persist.dbC9 "d" [Persist.rowB, Persist.rowA] ∧
    Persist.tsIdAsc [Persist.rowB, Persist.rowA] = false :=
  ⟨by decide, by decide⟩

/-- C9 (amended): the update reads return rows ordered by timestamp
ascending; the id tiebreak is not enforced, so the `(timestamp, id)`
composite order is only guaranteed when the doc's timestamps are pairwise
distinct. -/
theorem Persist.readAll_ts_distinct_implies_ts_id_order
    (db : Persist.DB) (doc : String) (res : List Persist.UpdateRow)
    (hvalid : Persist.validReadAll db doc res)
    (hnodup : ((Persist.updatesOf db doc).map (fun r => r.timestamp)).Nodup) :
    Persist.tsIdAsc res = true := by
  obtain ⟨hperm, hasc⟩ := hvalid
  have hnd : (res.map (fun r => r.timestamp)).Nodup :=
    (hperm.map (fun r => r.timestamp)).nodup_iff.mpr hnodup
  clear hperm hnodup
  induction res with
  | nil => rfl
  | cons a t ih =>
    match t, hasc, hnd with
    | [], _, _ => rfl
    | b :: t2, hasc, hnd =>
      rw [show Persist.tsAsc (a :: b :: t2) =
        (decide (a.timestamp ≤ b.timestamp) && Persist.tsAsc (b :: t2)) from rfl,
        Bool.and_eq_true, decide_eq_true_eq] at hasc
      obtain ⟨h1, h2⟩ := hasc
      have hne : a.timestamp ≠ b.timestamp := by
        intro hEq
        have : a.timestamp ∈ (b :: t2).map (fun r => r.timestamp) := by
          simp [hEq]
        exact (List.nodup_cons.mp hnd).1 this
      have h3 : (b :: t2).map (fun r => r.timestamp) |>.Nodup := (List.nodup_cons.mp hnd).2
      have hlt : a.timestamp < b.timestamp := lt_of_le_of_ne h1 hne
      have := ih h2 h3
      simp [Persist.tsIdAsc, hlt, this]

/-- Witness for the amended C9 theorem on a distinct-timestamp database. -/
theorem Persist.readAll_ts_distinct_implies_ts_id_order_witness :
    Persist.tsIdAsc [⟨1, "d", [1], none, 5⟩, ⟨2, "d", [2], none, 7⟩] = true :=
  Persist.readAll_ts_distinct_implies_ts_id_order Persist.dbC9w "d"
    [⟨1, "d", [1], none, 5⟩, ⟨2, "d", [2], none, 7⟩] (by decide) (by decide)

/-- C2: the claim fails on the code.  On a database holding a snapshot
(`[0]`) and one later update (`[1]`), the unified route's compaction
rebuilds from the updates alone — not from the latest snapshot — and
`Load` flips from the old snapshot (`[0]`) to the new one (`[1]`): the
pre- and post-compaction `Load` results are not equivalent. -/
theorem Persist.c2_counterexample :
    Persist.load Persist.dbC1 "d" = some [0] ∧
    Persist.load (Persist.handleCompact Persist.dbC1 "d" [] 30).2 "d" = some [1] ∧
    Persist.load Persist.dbC1 "d" ≠
      Persist.load (Persist.handleCompact Persist.dbC1 "d" [] 30).2 "d" :=
  ⟨by decide, by decide, by decide⟩

/-- C2 (amended): compaction preserves `Load` exactly when the doc has no
snapshot: then both the pre- and the post-compaction `Load` equal the
fold of all stored updates.  (When a snapshot exists, `Load` before
compaction returns that snapshot alone and ignores the update log, so the
equivalence fails; moreover only the specialised compact route seeds the
rebuild from the latest snapshot — the adapter and unified route rebuild
from the updates only.) -/
theorem Persist.compact_preserves_load_when_no_snapshot
    (db : Persist.DB) (doc : String) (now : Nat)
    (h : Persist.snapsOf db doc = []) :
    Persist.load (Persist.handleCompact db doc [] now).2 doc = Persist.load db doc := by
  unfold Persist.handleCompact
  cases hrows : Persist.sortByTs (Persist.updatesOf db doc) with
  | nil =>
    simp only [Persist.load, Persist.latestSnap, Persist.snapsOf, Persist.updatesOf,
      Persist.sortByTs, List.append_nil]
  | cons r rs =>
    simp only [Persist.load, Persist.latestSnap, Persist.snapsOf, List.filter_append, h]
    rw [show List.filter (fun s => s.docName == doc) db.snapshots = [] from h]
    simp only [List.nil_append, List.filter_cons, List.filter_nil]
    rw [show ((⟨db.nextSnapshotId, none, doc,
      Persist.encodeStateAsUpdate ((r :: rs).foldl (fun d q => Persist.applyUpdate d q.payload)
        Persist.newDoc), Persist.sha256Hex (Persist.encodeStateAsUpdate
        ((r :: rs).foldl (fun d q => Persist.applyUpdate d q.payload) Persist.newDoc)),
      none, none, none, now⟩ : Persist.SnapshotRow).docName == doc) = true from by simp]
    simp only [if_true, Persist.sortByCreatedDesc, Persist.sortOrd, Persist.insOrd,
      List.head?, hrows]
    rw [List.foldl_map]
    simp only [List.map_cons]

/-- Witness for the amended C2 theorem on a snapshot-free database. -/
theorem Persist.compact_preserves_load_when_no_snapshot_witness :
    Persist.load (Persist.handleCompact Persist.dbU "d" [] 30).2 "d" =
      Persist.load Persist.dbU "d" :=
  Persist.compact_preserves_load_when_no_snapshot Persist.dbU "d" 30 (by decide)

set_option maxRecDepth 40000 in
/-- C3: the claim fails on the code.  The direct adapters' `saveSnapshot`
stores `calculateChecksum` — a 32-bit JavaScript hash — not SHA-256: for
the blob `[0]` the stored checksum is `"0"`, which is not the lowercase
hex SHA-256 digest of `[0]`. -/
theorem Persist.c3_counterexample :
    ((Persist.saveSnapshotAdapter Persist.DB.empty "d" [0] 7).snapshots.map
      fun s => (s.state, s.checksum)) = [([0], "0")] ∧
    Persist.sha256Hex [0] ≠ "0" :=
  ⟨by decide, by decide⟩

/-- C3 (amended): snapshot rows written by the API routes (the snapshots
route, the unified route's saveSnapshot and compact handlers, and the
compact route) do carry the lowercase hex SHA-256 of the stored state
blob: each of those operations preserves the checksum invariant.  Rows
written through the direct adapters' `calculateChecksum` do not. -/
theorem Persist.api_routes_store_sha256 :
    (∀ db doc p pan now, Persist.snapshotsSha db →
      Persist.snapshotsSha (Persist.snapshotsPost db doc p pan now).2) ∧
    (∀ db doc p now, Persist.snapshotsSha db →
      Persist.snapshotsSha (Persist.handleSaveSnapshot db doc p now).2) ∧
    (∀ db doc late now, Persist.snapshotsSha db →
      Persist.snapshotsSha (Persist.handleCompact db doc late now).2) ∧
    (∀ db doc force pan late now, Persist.snapshotsSha db →
      Persist.snapshotsSha (Persist.compactRoute db doc force pan late now).2) := by
  refine ⟨?_, ?_, ?_, ?_⟩
  · intro db doc p pan now hdb
    unfold Persist.snapshotsPost
    by_cases hd : doc = ""
    · simpa [hd] using hdb
    · rw [if_neg hd]
      cases hp : Persist.parseUpdateFromRequest p with
      | none => exact hdb
      | some bytes =>
        simp only []
        cases hf : db.snapshots.filter
            (fun s => s.docName == doc && s.checksum == Persist.sha256Hex bytes) with
        | cons a l => exact hdb
        | nil =>
          intro s hs
          rcases List.mem_append.mp hs with hs1 | hs2
          · exact hdb s hs1
          · rcases List.mem_singleton.mp hs2 with rfl
            rfl
  · intro db doc p now hdb
    unfold Persist.handleSaveSnapshot
    by_cases hd : doc = ""
    · simpa [hd] using hdb
    · rw [if_neg hd]
      cases hp : Persist.parseUpdateFromRequest p with
      | none => exact hdb
      | some bytes =>
        intro s hs
        rcases List.mem_append.mp hs with hs1 | hs2
        · exact hdb s hs1
        · rcases List.mem_singleton.mp hs2 with rfl
          rfl
  · intro db doc late now hdb
    unfold Persist.handleCompact
    cases hrows : Persist.sortByTs (Persist.updatesOf db doc) with
    | nil => exact hdb
    | cons r rs =>
      intro s hs
      rcases List.mem_append.mp hs with hs1 | hs2
      · exact hdb s hs1
      · rcases List.mem_singleton.mp hs2 with rfl
        rfl
  · intro db doc force pan late now hdb
    unfold Persist.compactRoute
    by_cases hskip : (!force ∧ (Persist.updatesOf db doc).length < 10)
    · rw [if_pos hskip]
      exact hdb
    · rw [if_neg hskip]
      cases hrows : Persist.sortByTs (Persist.updatesOf db doc) with
      | nil => exact hdb
      | cons r rs =>
        intro s hs
        have hs2 := List.mem_filter.mp hs
        rcases List.mem_append.mp hs2.1 with hs3 | hs4
        · exact hdb s hs3
        · rcases List.mem_singleton.mp hs4 with rfl
          rfl

/-- Witness for the amended C3 theorem: all four route operations applied
to the empty database. -/
theorem Persist.api_routes_store_sha256_witness :
    Persist.snapshotsSha (Persist.snapshotsPost Persist.DB.empty "d" (.arr [1]) none 5).2 ∧
    Persist.snapshotsSha (Persist.handleSaveSnapshot Persist.DB.empty "d" (.arr [1]) 5).2 ∧
    Persist.snapshotsSha (Persist.handleCompact Persist.dbC4 "d" [] 10).2 ∧
    Persist.snapshotsSha (Persist.compactRoute Persist.dbC4 "d" true none [] 10).2 := by
  have hempty : Persist.snapshotsSha Persist.DB.empty := by
    intro s hs
    simp [Persist.DB.empty] at hs
  have hc4 : Persist.snapshotsSha Persist.dbC4 := by
    intro s hs
    simp [Persist.dbC4, Persist.DB.empty] at hs
  exact ⟨Persist.api_routes_store_sha256.1 Persist.DB.empty "d" (.arr [1]) none 5 hempty,
    Persist.api_routes_store_sha256.2.1 Persist.DB.empty "d" (.arr [1]) 5 hempty,
    Persist.api_routes_store_sha256.2.2.1 Persist.dbC4 "d" [] 10 hc4,
    Persist.api_routes_store_sha256.2.2.2 Persist.dbC4 "d" true none [] 10 hc4⟩

/-- C4: the claim fails on the code.  The compaction delete is
`DELETE FROM yjs_updates WHERE doc_name = $1`, bounded only by the doc
name; a row committed between the transaction's read and its delete is
removed as well, yet its payload (`[5]`) is absent from the snapshot the
compaction wrote (`[1]`) — the persisted update ends up in neither place. -/
theorem Persist.c4_counterexample :
    (Persist.handleCompact Persist.dbC4 "d" [Persist.lateRow] 10).2.updates = [] ∧
    ((Persist.handleCompact Persist.dbC4 "d" [Persist.lateRow] 10).2.snapshots.map
      fun s => s.state) = [[1]] :=
  ⟨by decide, by decide⟩

/-- C4 (amended): when the unified route's compaction proceeds, its delete
removes every update row of the compacted doc present at delete time —
including rows committed after the rebuild read, which are therefore lost —
while every row of any other doc survives. -/
theorem Persist.compaction_delete_is_unbounded
    (db : Persist.DB) (doc : String) (late : List Persist.UpdateRow) (now : Nat)
    (h : Persist.updatesOf db doc ≠ []) :
    (∀ r ∈ (Persist.handleCompact db doc late now).2.updates, ¬ r.docName = doc) ∧
    (∀ r ∈ db.updates ++ late, ¬ r.docName = doc →
      r ∈ (Persist.handleCompact db doc late now).2.updates) := by
  unfold Persist.handleCompact
  cases hrows : Persist.sortByTs (Persist.updatesOf db doc) with
  | nil =>
    have hp : (Persist.sortByTs (Persist.updatesOf db doc)).Perm (Persist.updatesOf db doc) :=
      Persist.sortOrd_perm _ _
    rw [hrows] at hp
    exact absurd hp.symm.eq_nil h
  | cons r rs =>
    constructor
    · intro q hq
      have := List.mem_filter.mp hq
      simpa using this.2
    · intro q hq hne
      refine List.mem_filter.mpr ⟨hq, ?_⟩
      simpa using hne

/-- Witness for the amended C4 theorem: compacting `"d"` leaves the row of
the unrelated doc `"e"` in the update log. -/
theorem Persist.compaction_delete_is_unbounded_witness :
    (⟨1, "e", [2], none, 6⟩ : Persist.UpdateRow) ∈
      (Persist.handleCompact Persist.dbC4w "d" [] 10).2.updates :=
  (Persist.compaction_delete_is_unbounded Persist.dbC4w "d" [] 10 (by decide)).2
    ⟨1, "e", [2], none, 6⟩ (by decide) (by decide)

/-- C6: the claim fails on the code.  The unified route's saveSnapshot
handler (`handleSaveSnapshot`) inserts unconditionally: two calls with the
same bytes produce two rows for the same doc and checksum, and the second
call answers with a fresh save, not with `duplicate=true`. -/
theorem Persist.c6_counterexample :
    ((Persist.handleSaveSnapshot
        (Persist.handleSaveSnapshot Persist.DB.empty "d" (.arr [1]) 5).2
        "d" (.arr [1]) 6).2.snapshots.map fun s => (s.docName, s.state)) =
      [("d", [1]), ("d", [1])] ∧
    ((Persist.handleSaveSnapshot
        (Persist.handleSaveSnapshot Persist.DB.empty "d" (.arr [1]) 5).2
        "d" (.arr [1]) 6).2.snapshots.map fun s => s.checksum) =
      [Persist.sha256Hex [1], Persist.sha256Hex [1]] ∧
    (Persist.handleSaveSnapshot
        (Persist.handleSaveSnapshot Persist.DB.empty "d" (.arr [1]) 5).2
        "d" (.arr [1]) 6).1 = .saved 1 (Persist.sha256Hex [1]) ∧
    ∀ c, (Persist.handleSaveSnapshot
        (Persist.handleSaveSnapshot Persist.DB.empty "d" (.arr [1]) 5).2
        "d" (.arr [1]) 6).1 ≠ .dup c := by
  refine ⟨by decide, rfl, rfl, ?_⟩
  intro c h
  rw [show (Persist.handleSaveSnapshot
      (Persist.handleSaveSnapshot Persist.DB.empty "d" (.arr [1]) 5).2
      "d" (.arr [1]) 6).1 = .saved 1 (Persist.sha256Hex [1]) from rfl] at h
  exact Persist.SnapResponse.noConfusion h

/-- C6 (amended): the specialised snapshots route is idempotent by
checksum — starting from a database with no row for the doc and checksum,
the first save inserts exactly one matching row and the second save with
the same bytes returns `duplicate=true` with the checksum and inserts
nothing — but the unified route's saveSnapshot action inserts a second row
unconditionally. -/
theorem Persist.snapshots_route_idempotent
    (db : Persist.DB) (doc : String) (p : Persist.ReqVal)
    (pan1 pan2 : Option (List String)) (t1 t2 : Nat) (bytes : List Nat)
    (hd : doc ≠ "")
    (hp : Persist.parseUpdateFromRequest p = some bytes)
    (h0 : db.snapshots.filter
      (fun s => s.docName == doc && s.checksum == Persist.sha256Hex bytes) = []) :
    ((Persist.snapshotsPost db doc p pan1 t1).2.snapshots.filter
      (fun s => s.docName == doc && s.checksum == Persist.sha256Hex bytes)).length = 1 ∧
    Persist.snapshotsPost (Persist.snapshotsPost db doc p pan1 t1).2 doc p pan2 t2 =
      (.dup (Persist.sha256Hex bytes), (Persist.snapshotsPost db doc p pan1 t1).2) := by
  have hstep : Persist.snapshotsPost db doc p pan1 t1 =
      (.saved db.nextSnapshotId (Persist.sha256Hex bytes),
        { db with
          snapshots := db.snapshots ++
            [⟨db.nextSnapshotId, none, doc, bytes, Persist.sha256Hex bytes,
              none, none, pan1, t1⟩],
          nextSnapshotId := db.nextSnapshotId + 1 }) := by
    unfold Persist.snapshotsPost
    rw [if_neg hd, hp]
    simp only [h0]
  constructor
  · rw [hstep]
    simp [List.filter_append, h0]
  · rw [hstep]
    unfold Persist.snapshotsPost
    rw [if_neg hd, hp]
    simp only [List.filter_append, h0, List.nil_append, List.filter_cons]
    simp

/-- Witness for the amended C6 theorem at the empty database. -/
theorem Persist.snapshots_route_idempotent_witness :
    ((Persist.snapshotsPost Persist.DB.empty "d" (.arr [1]) none 5).2.snapshots.filter
      (fun s => s.docName == "d" && s.checksum == Persist.sha256Hex [1])).length = 1 ∧
    Persist.snapshotsPost (Persist.snapshotsPost Persist.DB.empty "d" (.arr [1]) none 5).2
        "d" (.arr [1]) none 6 =
      (.dup (Persist.sha256Hex [1]),
        (Persist.snapshotsPost Persist.DB.empty "d" (.arr [1]) none 5).2) :=
  Persist.snapshots_route_idempotent Persist.DB.empty "d" (.arr [1]) none none 5 6 [1]
    (by decide) rfl rfl

/-- C7: the claim fails on the code.  The soft delete removes snapshots by
the `note_id` column, but snapshots written through the API routes store
NULL there even for `note:<id>` docs: after soft-deleting note `n1`, the
snapshot row whose doc name is `note:n1` survives (the note row itself is
correctly marked deleted). -/
theorem Persist.c7_counterexample :
    (Persist.snapsOf
      (Persist.deleteNote
        (Persist.snapshotsPost Persist.dbC7 "note:n1" (.arr [1]) none 5).2 "n1" 9)
      "note:n1").length = 1 ∧
    (Persist.deleteNote
        (Persist.snapshotsPost Persist.dbC7 "note:n1" (.arr [1]) none 5).2 "n1" 9).notes.map
      (fun n => n.deletedAt) = [some 9] :=
  ⟨by decide, by decide⟩

/-- C7 (amended): after a soft delete of note `n`, no update row remains
whose doc name is `note:n` or matches `panel:n:%`; no snapshot row remains
whose `note_id` column equals `n` (snapshot rows with a NULL `note_id` —
as written by the API routes — survive even when their doc name belongs to
the note); and every note, panel, and branch row of `n` carries a non-null
`deleted_at`. -/
theorem Persist.soft_delete_cascade
    (db : Persist.DB) (n : String) (now : Nat) :
    (∀ r ∈ (Persist.deleteNote db n now).updates,
      ¬(r.docName = "note:" ++ n ∨ Persist.panelDocOf n r.docName = true)) ∧
    (∀ s ∈ (Persist.deleteNote db n now).snapshots, ¬ s.noteId = some n) ∧
    (∀ note ∈ (Persist.deleteNote db n now).notes, note.id = n →
      note.deletedAt = some now) ∧
    (∀ p ∈ (Persist.deleteNote db n now).panels, p.noteId = n →
      p.deletedAt = some now) ∧
    (∀ b ∈ (Persist.deleteNote db n now).branches, b.noteId = n →
      b.deletedAt = some now) := by
  refine ⟨?_, ?_, ?_, ?_, ?_⟩
  · intro r hr
    have h2 := (List.mem_filter.mp hr).2
    simp only [Bool.not_eq_eq_eq_not, Bool.not_true, Bool.or_eq_false_iff,
      beq_eq_false_iff_ne, ne_eq] at h2
    intro hcon
    rcases hcon with hc1 | hc2
    · exact h2.1 hc1
    · rw [h2.2] at hc2
      exact Bool.false_ne_true hc2
  · intro s hs
    have h2 := (List.mem_filter.mp hs).2
    simp only [Bool.not_eq_eq_eq_not, Bool.not_true, beq_eq_false_iff_ne, ne_eq] at h2
    exact h2
  · intro note hnote hid
    rcases List.mem_map.mp hnote with ⟨orig, horig, rfl⟩
    by_cases ho : (orig.id == n) = true
    · simp only [ho, if_true]
    · simp only [ho, Bool.false_eq_true, if_false] at hid ⊢
      exact absurd (by simp [hid]) ho
  · intro p hp hid
    rcases List.mem_map.mp hp with ⟨orig, horig, rfl⟩
    by_cases ho : (orig.noteId == n) = true
    · simp only [ho, if_true]
    · simp only [ho, Bool.false_eq_true, if_false] at hid ⊢
      exact absurd (by simp [hid]) ho
  · intro b hb hid
    rcases List.mem_map.mp hb with ⟨orig, horig, rfl⟩
    by_cases ho : (orig.noteId == n) = true
    · simp only [ho, if_true]
    · simp only [ho, Bool.false_eq_true, if_false] at hid ⊢
      exact absurd (by simp [hid]) ho

/-- Witness for the amended C7 theorem: the note row of `dbC7w` is marked
deleted by the soft delete. -/
theorem Persist.soft_delete_cascade_witness :
    (⟨"n1", some 9⟩ : Persist.NoteRow).deletedAt = some 9 :=
  (Persist.soft_delete_cascade Persist.dbC7w "n1" 9).2.2.1 ⟨"n1", some 9⟩
    (by decide) (by decide)

namespace Persist

/-! ## Facts about the snapshot retention delete -/

theorem nodupIds_append (snaps : List SnapshotRow) (nr : SnapshotRow)
    (hnod : (snaps.map (fun s => s.id)).Nodup)
    (hlt : ∀ s ∈ snaps, s.id < nr.id) :
    ((snaps ++ [nr]).map (fun s => s.id)).Nodup := by
  rw [List.map_append]
  refine List.Nodup.append hnod (List.nodup_singleton _) ?_
  intro a ha hb
  rcases List.mem_map.mp ha with ⟨s, hs, rfl⟩
  have := hlt s hs
  simp only [List.map_cons, List.map_nil, List.mem_singleton] at hb
  omega

theorem pruneToLast_count (snaps : List SnapshotRow) (doc : String) (K : Nat)
    (hnod : (snaps.map (fun s => s.id)).Nodup) :
    ((pruneToLast snaps doc K).filter (fun s => s.docName == doc)).length ≤ K := by
  have hsubF : ((pruneToLast snaps doc K).filter (fun s => s.docName == doc)).Sublist snaps :=
    (List.filter_sublist _).trans (List.filter_sublist _)
  have hnodF : (((pruneToLast snaps doc K).filter (fun s => s.docName == doc)).map
      (fun s => s.id)).Nodup :=
    (hsubF.map _).nodup hnod
  have hsub : ((pruneToLast snaps doc K).filter (fun s => s.docName == doc)).map
      (fun s => s.id) ⊆
      ((sortByCreatedDesc (snaps.filter (fun q => q.docName == doc))).take K).map
        (fun q => q.id) := by
    intro x hx
    rcases List.mem_map.mp hx with ⟨s, hsF, rfl⟩
    have hq := (List.mem_filter.mp hsF).2
    have hsP := (List.mem_filter.mp (List.mem_filter.mp hsF).1).2
    rw [hq] at hsP
    simp only [Bool.not_true, Bool.false_or, decide_eq_true_eq] at hsP
    exact hsP
  have hlen := (hnodF.subperm hsub).length_le
  rw [List.length_map, List.length_map] at hlen
  exact hlen.trans (List.length_take_le _ _)

theorem pruneToLast_newest (snaps : List SnapshotRow) (doc : String) (K : Nat)
    (hnod : (snaps.map (fun s => s.id)).Nodup) :
    ∀ k ∈ (pruneToLast snaps doc K).filter (fun s => s.docName == doc),
    ∀ r ∈ snaps, (r.docName == doc) = true → r ∉ pruneToLast snaps doc K →
    r.createdAt ≤ k.createdAt := by
  intro k hk r hr hrdoc hrout
  have hnodDoc : ((snaps.filter (fun q => q.docName == doc)).map (fun s => s.id)).Nodup :=
    ((List.filter_sublist _).map _).nodup hnod
  have hperm : (sortByCreatedDesc (snaps.filter (fun q => q.docName == doc))).Perm
      (snaps.filter (fun q => q.docName == doc)) := sortOrd_perm _ _
  -- k is one of the kept newest rows
  have hqk := (List.mem_filter.mp hk).2
  have hkP := List.mem_filter.mp (List.mem_filter.mp hk).1
  have hkid : k.id ∈
      ((sortByCreatedDesc (snaps.filter (fun q => q.docName == doc))).take K).map
        (fun q => q.id) := by
    have h2 := hkP.2
    rw [hqk] at h2
    simp only [Bool.not_true, Bool.false_or, decide_eq_true_eq] at h2
    exact h2
  have hkdoc : k ∈ snaps.filter (fun q => q.docName == doc) :=
    List.mem_filter.mpr ⟨hkP.1, hqk⟩
  rcases List.mem_map.mp hkid with ⟨k2, hk2take, hk2id⟩
  have hk2doc : k2 ∈ snaps.filter (fun q => q.docName == doc) :=
    hperm.mem_iff.mp (List.take_subset _ _ hk2take)
  have hk2eq : k2 = k := List.inj_on_of_nodup_map hnodDoc hk2doc hkdoc hk2id
  have hktake : k ∈ (sortByCreatedDesc (snaps.filter (fun q => q.docName == doc))).take K :=
    hk2eq ▸ hk2take
  -- r was evicted, so it is not among the kept newest rows
  have hrdocSnaps : r ∈ snaps.filter (fun q => q.docName == doc) :=
    List.mem_filter.mpr ⟨hr, hrdoc⟩
  have hrid : r.id ∉
      ((sortByCreatedDesc (snaps.filter (fun q => q.docName == doc))).take K).map
        (fun q => q.id) := by
    intro hin
    refine hrout ?_
    show r ∈ snaps.filter _
    refine List.mem_filter.mpr ⟨hr, ?_⟩
    rw [hrdoc]
    simp only [Bool.not_true, Bool.false_or, decide_eq_true_eq]
    exact hin
  have hrsorted : r ∈ sortByCreatedDesc (snaps.filter (fun q => q.docName == doc)) :=
    hperm.mem_iff.mpr hrdocSnaps
  have hrdrop : r ∈ (sortByCreatedDesc (snaps.filter (fun q => q.docName == doc))).drop K := by
    have happ := List.take_append_drop K
      (sortByCreatedDesc (snaps.filter (fun q => q.docName == doc)))
    rcases List.mem_append.mp (by rw [happ]; exact hrsorted) with htk | hdr
    · exact absurd (List.mem_map.mpr ⟨r, htk, rfl⟩) hrid
    · exact hdr
  -- the sort is nonincreasing in created_at, and k is in the prefix
  have hpw : (sortByCreatedDesc (snaps.filter (fun q => q.docName == doc))).Pairwise
      (fun a b => (decide (b.createdAt ≤ a.createdAt)) = true) := by
    refine sortOrd_pairwise _ ?_ ?_ (snaps.filter (fun q => q.docName == doc))
    · intro a b
      rcases Nat.le_total b.createdAt a.createdAt with hh | hh
      · exact Or.inl (by simpa using hh)
      · exact Or.inr (by simpa using hh)
    · intro a b c hab hbc
      simp only [decide_eq_true_eq] at hab hbc ⊢
      omega
  have hsplit : List.Pairwise (fun a b => (decide (b.createdAt ≤ a.createdAt)) = true)
      ((sortByCreatedDesc (snaps.filter (fun q => q.docName == doc))).take K ++
        (sortByCreatedDesc (snaps.filter (fun q => q.docName == doc))).drop K) := by
    rw [List.take_append_drop]
    exact hpw
  have hcross := (List.pairwise_append.mp hsplit).2.2
  have hfin := hcross k hktake r hrdrop
  simpa using hfin

end Persist

/-- C5: the claim fails on the code.  The legacy adapter's compaction prunes
snapshots only by age (`SNAPSHOT_RETENTION_DAYS`, default 30 days), not by
count: compacting a doc that already has three recent snapshots leaves
four snapshot rows, exceeding K = 3. -/
theorem Persist.c5_counterexample :
    (Persist.snapsOf (Persist.compactAdapterV1 Persist.dbC5 "d" 30 [] 1000000) "d").length = 4 :=
  by decide

/-- C5 (amended): after the extended adapter's compaction proceeds (its
`shouldCompact` gate passes and updates exist), the compacted doc retains
at most `keepSnapshots` (default 3) snapshot rows, and every evicted
snapshot of the doc is no newer than every retained one.  The legacy
adapter's compaction instead prunes only snapshots older than the
retention window, and the unified route's compaction never prunes, so
those two paths can leave more than K snapshots. -/
theorem Persist.compaction_part015_retention
    (db : Persist.DB) (doc : String) (cfg : Persist.CompactionConfig)
    (late : List Persist.UpdateRow) (now : Nat)
    (hnod : (db.snapshots.map (fun s => s.id)).Nodup)
    (hlt : ∀ s ∈ db.snapshots, s.id < db.nextSnapshotId)
    (hsc : Persist.shouldCompact (Persist.getDocumentStats db doc) cfg now = true)
    (hne : Persist.updatesOf db doc ≠ []) :
    (Persist.snapsOf (Persist.compactPart015 db doc cfg late now).2 doc).length ≤
      cfg.keepSnapshots ∧
    (∀ k ∈ Persist.snapsOf (Persist.compactPart015 db doc cfg late now).2 doc,
      ∀ r ∈ db.snapshots, (r.docName == doc) = true →
        r ∉ (Persist.compactPart015 db doc cfg late now).2.snapshots →
        r.createdAt ≤ k.createdAt) := by
  have hshape : ∃ nr : Persist.SnapshotRow, nr.id = db.nextSnapshotId ∧
      (Persist.compactPart015 db doc cfg late now).2.snapshots =
        Persist.pruneToLast (db.snapshots ++ [nr]) doc cfg.keepSnapshots := by
    unfold Persist.compactPart015
    rw [hsc]
    simp only [Bool.not_true, Bool.false_eq_true, if_false]
    cases hrows : Persist.sortByTs (Persist.updatesOf db doc) with
    | nil =>
      have hp : (Persist.sortByTs (Persist.updatesOf db doc)).Perm (Persist.updatesOf db doc) :=
        Persist.sortOrd_perm _ _
      rw [hrows] at hp
      exact absurd hp.symm.eq_nil hne
    | cons r rs => exact ⟨_, rfl, rfl⟩
  obtain ⟨nr, hnrid, hsnap⟩ := hshape
  have hnod2 : ((db.snapshots ++ [nr]).map (fun s => s.id)).Nodup :=
    Persist.nodupIds_append db.snapshots nr hnod (fun s hs => hnrid ▸ hlt s hs)
  constructor
  · unfold Persist.snapsOf
    rw [hsnap]
    exact Persist.pruneToLast_count _ _ _ hnod2
  · intro k hk r hr hrdoc hrout
    unfold Persist.snapsOf at hk
    rw [hsnap] at hk hrout
    exact Persist.pruneToLast_newest _ _ _ hnod2 k hk r (List.mem_append_left _ hr) hrdoc hrout

/-- Witness for the amended C5 theorem: compacting `dbC5w` (whose snapshot
is older than 24 hours) leaves at most three snapshots for the doc. -/
theorem Persist.compaction_part015_retention_witness :
    (Persist.snapsOf
      (Persist.compactPart015 Persist.dbC5w "d" Persist.defaultCompactionConfig
        [] 100000000000).2 "d").length ≤ Persist.defaultCompactionConfig.keepSnapshots :=
  (Persist.compaction_part015_retention Persist.dbC5w "d" Persist.defaultCompactionConfig
    [] 100000000000 (by decide) (by decide) (by decide) (by decide)).1

namespace Persist

/-! ## Facts about the base64 transport encoding -/

theorem b64Val_b64Char : ∀ v, v < 64 → b64Val (b64Char v) = some v := by decide

theorem b64Char_ne_pad : ∀ v, v < 64 → b64Char v ≠ '=' := by decide

theorem encB64_ne_nil (a : Nat) (t : List Nat) : encB64 (a :: t) ≠ [] := by
  match t with
  | [] => simp [encB64]
  | [b] => simp [encB64]
  | b :: c :: r => simp [encB64]

theorem decB64_four_pad2 (c1 c2 : Char) (v1 v2 : Nat)
    (h1 : b64Val c1 = some v1) (h2 : b64Val c2 = some v2) :
    decB64 [c1, c2, '=', '='] = some [v1 * 4 + v2 / 16] := by
  simp [decB64, h1, h2]

theorem decB64_four_pad1 (c1 c2 c3 : Char) (v1 v2 v3 : Nat) (h3ne : c3 ≠ '=')
    (h1 : b64Val c1 = some v1) (h2 : b64Val c2 = some v2) (h3 : b64Val c3 = some v3) :
    decB64 [c1, c2, c3, '='] = some [v1 * 4 + v2 / 16, v2 % 16 * 16 + v3 / 4] := by
  simp [decB64, h3ne, h1, h2, h3]

theorem decB64_cons4 (c1 c2 c3 c4 : Char) (rest : List Char)
    (v1 v2 v3 v4 : Nat) (tl : List Nat) (h3ne : c3 ≠ '=') (h4ne : c4 ≠ '=')
    (h1 : b64Val c1 = some v1) (h2 : b64Val c2 = some v2)
    (h3 : b64Val c3 = some v3) (h4 : b64Val c4 = some v4)
    (htl : decB64 rest = some tl) :
    decB64 (c1 :: c2 :: c3 :: c4 :: rest) =
      some ((v1 * 4 + v2 / 16) :: (v2 % 16 * 16 + v3 / 4) :: (v3 % 4 * 64 + v4) :: tl) := by
  simp [decB64, h3ne, h4ne, h1, h2, h3, h4, htl]

theorem decB64_encB64_aux :
    ∀ (n : Nat) (u : List Nat), u.length ≤ n → (∀ b ∈ u, b < 256) →
      decB64 (encB64 u) = some u := by
  intro n
  induction n with
  | zero =>
    intro u hlen _
    have hnil : u = [] := List.eq_nil_of_length_eq_zero (Nat.le_zero.mp hlen)
    subst hnil
    rfl
  | succ n ih =>
    intro u hlen hb
    match u with
    | [] => rfl
    | [a] =>
      have ha : a < 256 := hb a (by simp)
      show decB64 [b64Char (a / 4), b64Char (a % 4 * 16), '=', '='] = some [a]
      rw [decB64_four_pad2 _ _ _ _ (b64Val_b64Char _ (by omega)) (b64Val_b64Char _ (by omega))]
      have harith : a / 4 * 4 + a % 4 * 16 / 16 = a := by omega
      rw [harith]
    | [a, b] =>
      have ha : a < 256 := hb a (by simp)
      have hbb : b < 256 := hb b (by simp)
      show decB64 [b64Char (a / 4), b64Char (a % 4 * 16 + b / 16), b64Char (b % 16 * 4), '='] =
        some [a, b]
      rw [decB64_four_pad1 _ _ _ _ _ _ (b64Char_ne_pad _ (by omega))
        (b64Val_b64Char _ (by omega)) (b64Val_b64Char _ (by omega))
        (b64Val_b64Char _ (by omega))]
      have h1 : a / 4 * 4 + (a % 4 * 16 + b / 16) / 16 = a := by omega
      have h2 : (a % 4 * 16 + b / 16) % 16 * 16 + b % 16 * 4 / 4 = b := by omega
      rw [h1, h2]
    | a :: b :: c :: rest =>
      have ha : a < 256 := hb a (by simp)
      have hbb : b < 256 := hb b (by simp)
      have hc : c < 256 := hb c (by simp)
      have hrest : decB64 (encB64 rest) = some rest := by
        refine ih rest ?_ (fun x hx => hb x (by simp [hx]))
        have := hlen
        simp only [List.length_cons] at this
        omega
      show decB64 (b64Char (a / 4) :: b64Char (a % 4 * 16 + b / 16) ::
        b64Char (b % 16 * 4 + c / 64) :: b64Char (c % 64) :: encB64 rest) =
        some (a :: b :: c :: rest)
      rw [decB64_cons4 _ _ _ _ _ _ _ _ _ _
        (b64Char_ne_pad _ (by omega)) (b64Char_ne_pad _ (by omega))
        (b64Val_b64Char _ (by omega)) (b64Val_b64Char _ (by omega))
        (b64Val_b64Char _ (by omega)) (b64Val_b64Char _ (by omega)) hrest]
      have h1 : a / 4 * 4 + (a % 4 * 16 + b / 16) / 16 = a := by omega
      have h2 : (a % 4 * 16 + b / 16) % 16 * 16 + (b % 16 * 4 + c / 64) / 4 = b := by omega
      have h3 : (b % 16 * 4 + c / 64) % 4 * 64 + c % 64 = c := by omega
      rw [h1, h2, h3]

theorem decB64_encB64 (u : List Nat) (hb : ∀ b ∈ u, b < 256) :
    decB64 (encB64 u) = some u :=
  decB64_encB64_aux u.length u (Nat.le_refl _) hb

end Persist

/-- C10: the claim fails on the code at one input.  For the empty byte
sequence, `formatUpdateForTransport` produces the empty string, which
`parseUpdateFromRequest` rejects as falsy (`if (!update) return null`)
instead of decoding it back to the empty sequence. -/
theorem Persist.c10_counterexample :
    Persist.formatUpdateForTransport [] = "" ∧
    Persist.parseUpdateFromRequest (.str (Persist.formatUpdateForTransport [])) = none :=
  ⟨by decide, by decide⟩

/-- C10 (amended): the base64 transport round-trips on every byte sequence
(`base64ToUint8Array ∘ uint8ArrayToBase64` is the identity), and
`parseUpdateFromRequest ∘ formatUpdateForTransport` is the identity on
every non-empty byte sequence; the empty sequence alone is lost to the
falsy-input guard. -/
theorem Persist.transport_roundtrip (u : List Nat) (hb : ∀ b ∈ u, b < 256) :
    Persist.base64ToUint8Array (Persist.uint8ArrayToBase64 u) = some u ∧
    (u ≠ [] → Persist.parseUpdateFromRequest
      (.str (Persist.formatUpdateForTransport u)) = some u) := by
  have h1 : Persist.decB64 (Persist.encB64 u) = some u := Persist.decB64_encB64 u hb
  constructor
  · exact h1
  · intro hne
    show (if Persist.uint8ArrayToBase64 u = "" then none
      else Persist.base64ToUint8Array (Persist.uint8ArrayToBase64 u)) = some u
    rw [if_neg ?hne2]
    · exact h1
    case hne2 =>
      match u, hne with
      | a :: t, _ =>
        intro heq
        exact Persist.encB64_ne_nil a t (congrArg String.data heq)

/-- Witness for the amended C10 theorem on the bytes `[0, 255, 77]`. -/
theorem Persist.transport_roundtrip_witness :
    Persist.base64ToUint8Array (Persist.uint8ArrayToBase64 [0, 255, 77]) =
      some [0, 255, 77] ∧
    Persist.parseUpdateFromRequest
      (.str (Persist.formatUpdateForTransport [0, 255, 77])) = some [0, 255, 77] :=
  ⟨(Persist.transport_roundtrip [0, 255, 77] (by decide)).1,
    (Persist.transport_roundtrip [0, 255, 77] (by decide)).2 (by decide)⟩
